import Mathlib

/-!
Verification of the firefly-common repository components:

* `pkg/fftypes/enum.go` — the `FFEnum` registry and parser (embedded directly
  from the Go source).
* `pkg/httpserver` — HTTP(S) server construction, auth dispatch, middleware
  and lifecycle controller.  The implementation file is not part of the
  source tree here (only its tests are), so those components are modelled
  from the specification, as marked on each definition.
* `pkg/cache` — the cache manager (same situation: modelled from the
  specification and the behaviour its tests pin down).

Go's package-level mutable state (the enum registry) is embedded by explicit
state passing; Go strings are embedded as lists of characters.
-/

namespace FireflyCommon

/-! ## Go strings and `strings.ToLower` -/

/-- Go strings, embedded as lists of characters. -/
abbrev GoString := List Char

/-- Character-level embedding of Go `strings.ToLower` on the ASCII letters
`A`–`Z` (code points 65–90), which is the only range the enum registry and
plugin names exercise. -/
def lowerChar (c : Char) : Char :=
  if 65 ≤ c.toNat ∧ c.toNat ≤ 90 then Char.ofNat (c.toNat + 32) else c

/-- Embedding of Go `strings.ToLower`. -/
def goToLower (s : GoString) : GoString := s.map lowerChar

/-! ## pkg/fftypes/enum.go

Embedded directly from the Go source.  The package-level mutable map
`enumValues : map[string][]interface{}` is embedded as the explicit list of
registrations performed by `FFEnumValue`, in order; a key is present in the
Go map exactly when some registration used it. -/

/-- `type FFEnum string`. -/
abbrev FFEnum := GoString

/-- The state of the package-level `enumValues` registry: every
`FFEnumValue(t, val)` call, in order. -/
abbrev EnumRegistry := List (GoString × GoString)

/-- Embedding of `FFEnumValue(t, val)`: appends `val` verbatim to the value
list under key `t` verbatim (no lowercasing on either), and returns
`FFEnum(val)`. -/
def FFEnumValue (reg : EnumRegistry) (t val : GoString) : EnumRegistry × FFEnum :=
  (reg ++ [(t, val)], val)

/-- The value list the Go map holds under key `t` (registration order). -/
def valuesUnder (reg : EnumRegistry) (t : GoString) : List GoString :=
  (reg.filter fun p => p.1 == t).map Prod.snd

/-- The Go two-valued map lookup `e, ok := enumValues[t]` — `some` of the
value list when the key is present, `none` otherwise. -/
def enumValuesOf (reg : EnumRegistry) (t : GoString) : Option (List GoString) :=
  if reg.any (fun p => p.1 == t) then some (valuesUnder reg t) else none

/-- The two distinct error kinds of `FFEnumParseString`:
`i18n.MsgInvalidEnum` (unknown enum type, carrying `t`) and
`i18n.MsgInvalidEnumValue` (known type, no matching value, carrying `i` and
`t`). -/
inductive EnumParseError
  | invalidEnum (t : GoString)
  | invalidEnumValue (i t : GoString)
  deriving DecidableEq

/-- Embedding of `FFEnumParseString(ctx, t, i)`: looks up
`enumValues[strings.ToLower(t)]`; on a map miss returns `MsgInvalidEnum`;
otherwise scans the value list for an entry equal to `strings.ToLower(i)`,
returning `FFEnum(strings.ToLower(i))` on a hit and `MsgInvalidEnumValue`
otherwise. -/
def FFEnumParseString (reg : EnumRegistry) (t i : GoString) :
    Except EnumParseError FFEnum :=
  match enumValuesOf reg (goToLower t) with
  | none => .error (.invalidEnum t)
  | some e =>
    if e.contains (goToLower i) then .ok (goToLower i)
    else .error (.invalidEnumValue i t)

/-! ## pkg/httpserver — configuration and construction

The `httpserver` implementation is not among the provided source files (only
its tests are), so the definitions below are modelled from the
specification, §3–§4 and §6–§7, with the stable error codes the tests pin
down. -/

/-- Modelled from the spec: `ServerConfig` (§3) — the resolved scalar
configuration consumed by construction (address, port, TLS flags and file
paths, timeouts, auth-type identifier). -/
structure HTTPConfig where
  address : GoString
  port : Nat
  tlsEnabled : Bool
  tlsClientAuth : Bool
  tlsKeyFile : GoString
  tlsCertFile : GoString
  tlsCAFile : GoString
  shutdownTimeout : Nat
  maximumRequestTimeout : Nat
  authType : GoString

/-- Modelled from the spec: the file system visible to TLS material loading.
A file's contents are abstracted to the list of PEM block type tags it
holds; `read` returns `none` when the path does not exist or is
unreadable. -/
structure FileSystem where
  read : GoString → Option (List GoString)

/-- Modelled from the spec (§4.1): PEM parsing of a CA bundle succeeds iff
the file contains at least one certificate block
(`x509.CertPool.AppendCertsFromPEM` returning `ok`). -/
def pemHasCertificate (content : List GoString) : Bool :=
  content.contains "CERTIFICATE".data

/-- Modelled from the spec (§7): the construction-time error taxonomy.
Each failure mode is a distinct constructor; `ConfigError.code` attaches
the stable `FFxxxxx` code where the tests pin one down. -/
inductive ConfigError
  | listenerInvalid (addr : GoString)
  | keyPairUnreadable
  | caFileMissing (path : GoString)
  | caFileUnparsable (path : GoString)
  | unknownAuthPlugin (name : GoString)
  deriving DecidableEq

/-- The stable error code carried by each construction failure mode
(`none` where no test pins the code down). -/
def ConfigError.code : ConfigError → Option GoString
  | .listenerInvalid _ => none
  | .keyPairUnreadable => none
  | .caFileMissing _ => some "FF00153".data
  | .caFileUnparsable _ => some "FF00152".data
  | .unknownAuthPlugin _ => some "FF00168".data

/-- Modelled from the spec (§3): request metadata handed to an
authenticator — headers (carrying any credentials) and path. -/
structure GoRequest where
  headers : List (GoString × GoString)
  path : GoString

/-- Modelled from the spec (§3): an `Authenticator` capability — given
request metadata, decide authorized or not. -/
structure Authenticator where
  authorize : GoRequest → Bool

/-- Modelled from the spec (§4.2): the no-op authenticator an empty/unset
auth-type identifier resolves to; it authorizes every request. -/
def noopAuthenticator : Authenticator := ⟨fun _ => true⟩

/-- Modelled from the spec (§4.2/§9): the authentication plugin registry, a
static name → constructor table. -/
abbrev AuthRegistry := List (GoString × Authenticator)

/-- Modelled from the spec (§4.2): resolve an auth-type identifier.  An
empty identifier resolves to the no-op authenticator; otherwise the
registry is consulted case-insensitively, and an unresolvable name fails
with the distinct unknown-authentication-plugin error (code `FF00168`)
naming the offending identifier. -/
def resolveAuthPlugin (reg : AuthRegistry) (authType : GoString) :
    Except ConfigError Authenticator :=
  if authType.isEmpty then .ok noopAuthenticator
  else
    match reg.find? (fun p => goToLower p.1 == goToLower authType) with
    | some p => .ok p.2
    | none => .error (.unknownAuthPlugin authType)

/-- Modelled from the spec (§4.1): whether a listen address string parses
as a valid network address — a check on the string alone, performed before
any socket syscall.  The host is empty (all interfaces) or consists of
nonempty dot-separated labels of alphanumeric/hyphen characters; the
tests' malformed address of bare dots is rejected. -/
def hostLabelValid (label : GoString) : Bool :=
  !label.isEmpty && label.all fun c => c.isAlphanum || c == '-'

/-- Modelled from the spec (§4.1): listen-address validation. -/
def listenAddressValid (address : GoString) : Bool :=
  address.isEmpty || (address.splitOn '.').all hostLabelValid

/-- Modelled from the spec (§4.1) and the construction tests: CA bundle
loading.  When a CA file path is configured (nonempty), the file is read —
a missing/unreadable path is the distinct CA-file-missing error
(`FF00153`); a file that holds no valid certificate data is the distinct
CA-file-unparsable error (`FF00152`).  The tests exercise both without
enabling TLS, so this step is keyed on the path alone. -/
def loadCAPool (fs : FileSystem) (path : GoString) :
    Except ConfigError (List GoString) :=
  if path.isEmpty then .ok []
  else
    match fs.read path with
    | none => .error (.caFileMissing path)
    | some content =>
      if pemHasCertificate content then .ok content
      else .error (.caFileUnparsable path)

/-- Modelled from the spec (§4.1): when TLS is enabled the key/cert pair is
loaded from the configured paths, failing with the key-pair-unreadable
error when either cannot be read. -/
def loadKeyPair (fs : FileSystem) (conf : HTTPConfig) : Except ConfigError Unit :=
  if conf.tlsEnabled then
    match fs.read conf.tlsKeyFile, fs.read conf.tlsCertFile with
    | some _, some _ => .ok ()
    | _, _ => .error .keyPairUnreadable
  else .ok ()

/-- Modelled from the spec (§3): the derived in-memory TLS policy. -/
structure TLSPolicy where
  clientAuthRequired : Bool
  caPool : List GoString
  deriving DecidableEq

/-- Observable system side effects of construction, in order.  Used to
state that failed construction opens no socket (no partial socket state
leaks). -/
inductive SysEffect
  | openSocket (address : GoString) (port : Nat)
  deriving DecidableEq

/-- Modelled from the spec (§3): the live `ServerHandle` returned by
construction — bound address, resolved authenticator, TLS policy and
configured timeouts. -/
structure ServerHandle where
  boundAddress : GoString
  boundPort : Nat
  auth : Authenticator
  tls : Option TLSPolicy
  shutdownTimeout : Nat
  maximumRequestTimeout : Nat

/-- Modelled from the spec (§2, §4.1–§4.2, §7, §8): `NewHTTPServer`.
Construction is synchronous: address validation (pure, before any
syscall), TLS material loading, auth plugin resolution; only when every
step succeeds is the listener socket opened.  The result is paired with
the trace of socket effects, so "construction fails ⇒ no listener opened"
is an inspectable output. -/
def NewHTTPServer (fs : FileSystem) (reg : AuthRegistry) (conf : HTTPConfig) :
    Except ConfigError ServerHandle × List SysEffect :=
  if listenAddressValid conf.address then
    match loadCAPool fs conf.tlsCAFile with
    | .error e => (.error e, [])
    | .ok pool =>
      match loadKeyPair fs conf with
      | .error e => (.error e, [])
      | .ok _ =>
        match resolveAuthPlugin reg conf.authType with
        | .error e => (.error e, [])
        | .ok auth =>
          (.ok { boundAddress := conf.address
                 boundPort := conf.port
                 auth := auth
                 tls := if conf.tlsEnabled then
                     some { clientAuthRequired := conf.tlsClientAuth, caPool := pool }
                   else none
                 shutdownTimeout := conf.shutdownTimeout
                 maximumRequestTimeout := conf.maximumRequestTimeout },
           [.openSocket conf.address conf.port])
  else (.error (.listenerInvalid conf.address), [])

/-! ## pkg/httpserver — request middleware chain -/

/-- Modelled from the spec (§4.3/§6): an HTTP response — status code and a
JSON object body, abstracted to its flat string fields. -/
structure GoResponse where
  status : Nat
  body : List (GoString × GoString)
  deriving DecidableEq

/-- The coded unauthorized message of the wire contract (§6): error code
`FF00169` followed by the `Unauthorized` text. -/
def unauthorizedMessage : GoString := "FF00169: Unauthorized".data

/-- Modelled from the spec (§4.3): authentication enforcement around the
caller-supplied router.  On failure the chain short-circuits with HTTP 403
and the single-field JSON error body, and the router is not invoked; on
success the router's response passes through unmodified.  The returned
flag records whether the router was invoked. -/
def serveRequest (auth : Authenticator) (router : GoRequest → GoResponse)
    (req : GoRequest) : GoResponse × Bool :=
  if auth.authorize req then (router req, true)
  else ({ status := 403, body := [("error".data, unauthorizedMessage)] }, false)

/-! ## pkg/httpserver — server lifecycle controller

Modelled from the spec (§4.4): an explicit state machine
Idle → Serving → ShuttingDown → Terminated, reacting to the two racing
conditions of the blocking serve operation (accept-loop return and context
cancellation).  The caller's error channel is embedded as the list of
values written to it, in order; `none` is Go `nil`. -/

/-- Modelled from the spec (§4.4): lifecycle phases. -/
inductive Phase
  | idle
  | serving
  | shuttingDown
  | terminated
  deriving DecidableEq

/-- Modelled from the spec (§4.4/§5): the environment events the lifecycle
controller reacts to.  `serveReturned err` is the underlying accept/serve
loop ending with the given error; `shutdownCompleted err` is the graceful
shutdown call returning the given error (`none` = `nil`). -/
inductive LCEvent
  | start
  | serveReturned (err : Option GoString)
  | ctxCancelled
  | shutdownCompleted (err : Option GoString)
  deriving DecidableEq

/-- The lifecycle controller's state: its phase and the values written so
far to the caller-owned error channel. -/
structure Controller where
  phase : Phase
  written : List (Option GoString)
  deriving DecidableEq

/-- Modelled from the spec (§4.4): one controller transition.  A fatal
serve return while serving writes that error immediately and terminates;
context cancellation moves to shutting down; the shutdown call's own
result is written on completion; every other event in a phase is ignored
(in particular, a terminated controller is inert). -/
def lcStep (s : Controller) (e : LCEvent) : Controller :=
  match s.phase, e with
  | .idle, .start => { s with phase := .serving }
  | .serving, .serveReturned err =>
      { phase := .terminated, written := s.written ++ [err] }
  | .serving, .ctxCancelled => { s with phase := .shuttingDown }
  | .shuttingDown, .shutdownCompleted err =>
      { phase := .terminated, written := s.written ++ [err] }
  | _, _ => s

/-- A whole serve invocation: the controller consumes its event sequence
from the idle state. -/
def lcRun (events : List LCEvent) : Controller :=
  events.foldl lcStep { phase := .idle, written := [] }

/-- Modelled from the spec (§4.4): the graceful shutdown primitive bounded
by the configured shutdown timeout — `nil` when the in-flight requests
drain within the bound, the deadline-exceeded error when the bound
expires (after which connections are force-closed). -/
def shutdownResult (drainTime timeout : Nat) : Option GoString :=
  if drainTime ≤ timeout then none else some "context deadline exceeded".data

/-! ## pkg/cache

The cache implementation is not among the provided source files (only its
tests are); modelled from the specification (§1: "a registry of named,
size/TTL-bounded key-value caches with a global and per-cache enable
flag") and the behaviour `cache_test.go` pins down. -/

/-- Modelled from the spec/tests: values a cache stores (the typed getters
of the tests: `int`, `int64`, `string`, plus untyped `Get`). -/
inductive CVal
  | vInt (i : Int)
  | vInt64 (i : Int)
  | vString (s : GoString)
  deriving DecidableEq

/-- Modelled from the spec/tests: a named cache — its resolved enablement
flag and key-value store. -/
structure CCache where
  enabled : Bool
  store : List (GoString × CVal)
  deriving DecidableEq

/-- Untyped `Get`: the stored value, `none` (Go `nil`) when absent. -/
def CCache.get (c : CCache) (k : GoString) : Option CVal :=
  (c.store.find? fun p => p.1 == k).map Prod.snd

/-- `Set`: a no-op on a disabled cache; otherwise upserts the key. -/
def CCache.set (c : CCache) (k : GoString) (v : CVal) : CCache :=
  if c.enabled then
    { c with store := (k, v) :: c.store.filter fun p => p.1 != k }
  else c

/-- `GetInt`: zero value when absent or differently typed. -/
def CCache.getInt (c : CCache) (k : GoString) : Int :=
  match c.get k with
  | some (.vInt i) => i
  | _ => 0

/-- `GetInt64`: zero value when absent or differently typed. -/
def CCache.getInt64 (c : CCache) (k : GoString) : Int :=
  match c.get k with
  | some (.vInt64 i) => i
  | _ => 0

/-- `GetString`: zero value (empty string) when absent or differently
typed. -/
def CCache.getString (c : CCache) (k : GoString) : GoString :=
  match c.get k with
  | some (.vString s) => s
  | _ => []

/-- `Delete`: removes the key, reporting whether anything was deleted. -/
def CCache.delete (c : CCache) (k : GoString) : CCache × Bool :=
  match c.get k with
  | some _ => ({ c with store := c.store.filter fun p => p.1 != k }, true)
  | none => (c, false)

/-- Modelled from the spec: the cache manager — the global enablement flag
and the registry of named caches. -/
structure CacheManager where
  enabled : Bool
  caches : List (GoString × CCache)

/-- `NewCacheManager(ctx, enabled)`. -/
def NewCacheManager (enabled : Bool) : CacheManager :=
  { enabled := enabled, caches := [] }

/-- Modelled from the spec/tests: `GetCache(ctx, name, size, ttl, enabled)`
returns the cache already registered under `name`, or registers a fresh
one whose effective flag is the conjunction of the manager's global flag
and the per-cache flag (`size`/`ttl` bound capacity, which the claims do
not probe). -/
def CacheManager.getCache (m : CacheManager) (name : GoString)
    (size ttl : Nat) (perCacheEnabled : Bool) : CacheManager × CCache :=
  match m.caches.find? fun p => p.1 == name with
  | some p => (m, p.2)
  | none =>
    let c : CCache := { enabled := m.enabled && perCacheEnabled, store := [] }
    ({ m with caches := (name, c) :: m.caches }, c)

/-- The mutating cache operations, for stating that a disabled cache stays
observably empty under any operation sequence. -/
inductive CacheOp
  | opSet (k : GoString) (v : CVal)
  | opDelete (k : GoString)

/-- Apply one cache operation. -/
def CCache.applyOp (c : CCache) (op : CacheOp) : CCache :=
  match op with
  | .opSet k v => c.set k v
  | .opDelete k => (c.delete k).1

/-- Apply a sequence of cache operations. -/
def CCache.applyOps (c : CCache) (ops : List CacheOp) : CCache :=
  ops.foldl CCache.applyOp c

/-! ## Theorems — pkg/fftypes/enum.go -/

theorem Char.toNat_ofNat_of_valid (n : Nat) (h : n.isValidChar) :
    (Char.ofNat n).toNat = n := by
  simp only [Char.ofNat, Char.ofNatAux, Char.toNat, dif_pos h]
  rfl

theorem lowerChar_idem (c : Char) : lowerChar (lowerChar c) = lowerChar c := by
  by_cases h : 65 ≤ c.toNat ∧ c.toNat ≤ 90
  · have hv : (c.toNat + 32).isValidChar := Or.inl (by omega)
    have h1 : lowerChar c = Char.ofNat (c.toNat + 32) := by simp [lowerChar, h]
    have h2 : (Char.ofNat (c.toNat + 32)).toNat = c.toNat + 32 :=
      Char.toNat_ofNat_of_valid _ hv
    rw [h1]
    unfold lowerChar
    rw [h2, if_neg (by omega)]
  · have h1 : lowerChar c = c := by simp [lowerChar, h]
    rw [h1, h1]

theorem goToLower_idem (s : GoString) : goToLower (goToLower s) = goToLower s := by
  unfold goToLower
  rw [List.map_map]
  exact List.map_congr_left fun c _ => lowerChar_idem c

theorem enum_parse_ok_iff (reg : EnumRegistry) (t i v : GoString) :
    FFEnumParseString reg t i = .ok v ↔
      v = goToLower i ∧
      ∃ e, enumValuesOf reg (goToLower t) = some e ∧ goToLower i ∈ e := by
  unfold FFEnumParseString
  cases h : enumValuesOf reg (goToLower t) with
  | none => simp
  | some e =>
    dsimp only
    by_cases hc : e.contains (goToLower i) = true
    · rw [if_pos hc]
      constructor
      · intro hok
        cases hok
        exact ⟨rfl, e, rfl, List.elem_iff.1 hc⟩
      · rintro ⟨hv, _, he, _⟩
        cases he
        cases hv
        rfl
    · rw [if_neg hc]
      constructor
      · intro hok
        cases hok
      · rintro ⟨hv, e', he, hmem⟩
        cases he
        exact absurd (List.elem_iff.2 hmem) hc

theorem enum_parse_unknown_type (reg : EnumRegistry) (t i : GoString)
    (h : enumValuesOf reg (goToLower t) = none) :
    FFEnumParseString reg t i = .error (.invalidEnum t) := by
  unfold FFEnumParseString
  rw [h]

theorem enum_parse_bad_value (reg : EnumRegistry) (t i : GoString)
    (e : List GoString) (h : enumValuesOf reg (goToLower t) = some e)
    (hm : goToLower i ∉ e) :
    FFEnumParseString reg t i = .error (.invalidEnumValue i t) := by
  unfold FFEnumParseString
  rw [h]
  dsimp only
  rw [if_neg fun hc => hm (List.elem_iff.1 hc)]

theorem any_filter_ne (reg : EnumRegistry) (t₀ key : GoString) (hk : key ≠ t₀) :
    ((reg.filter fun p => p.1 != t₀).any fun p => p.1 == key) =
      reg.any fun p => p.1 == key := by
  induction reg with
  | nil => rfl
  | cons hd tl ih =>
    by_cases h : hd.1 = t₀
    · have h1 : (hd.1 != t₀) = false := by simp [h]
      have h2 : (hd.1 == key) = false := by
        rw [h]
        exact beq_eq_false_iff_ne.2 fun he => hk he.symm
      simp [List.filter_cons, List.any_cons, h1, h2, ih]
    · have h1 : (hd.1 != t₀) = true := bne_iff_ne.2 h
      simp [List.filter_cons, List.any_cons, h1, ih]

theorem valuesUnder_filter_ne (reg : EnumRegistry) (t₀ key : GoString)
    (hk : key ≠ t₀) :
    valuesUnder (reg.filter fun p => p.1 != t₀) key = valuesUnder reg key := by
  unfold valuesUnder
  rw [List.filter_filter]
  congr 1
  apply List.filter_congr
  intro p _
  by_cases h : p.1 = key
  · have h1 : (p.1 != t₀) = true := bne_iff_ne.2 (h ▸ hk)
    simp [h, h1, hk]
  · simp [beq_eq_false_iff_ne.2 h]

theorem enumValuesOf_filter_ne (reg : EnumRegistry) (t₀ key : GoString)
    (hk : key ≠ t₀) :
    enumValuesOf (reg.filter fun p => p.1 != t₀) key = enumValuesOf reg key := by
  unfold enumValuesOf
  rw [any_filter_ne reg t₀ key hk, valuesUnder_filter_ne reg t₀ key hk]

/-- C9: `FFEnumParseString(ctx, t, i)` succeeds and returns
`FFEnum(lowercase(i))` if and only if the registry has an entry under key
`lowercase(t)` whose value list contains exactly `lowercase(i)`; otherwise
it errors, with the unknown-enum-type error when the key is absent and the
distinct invalid-enum-value error for a known type with no matching value.
Since `FFEnumValue` registers type name and value verbatim, a registered
value that lowercasing would change can never be the result of a
successful parse, and a registration whose type name lowercasing would
change is never consulted (erasing all entries under that name changes no
parse). -/
theorem C9_enum_parse_spec (reg : EnumRegistry) (t i : GoString) :
    (∀ v, FFEnumParseString reg t i = .ok v ↔
        v = goToLower i ∧
        ∃ e, enumValuesOf reg (goToLower t) = some e ∧ goToLower i ∈ e)
    ∧ (enumValuesOf reg (goToLower t) = none →
        FFEnumParseString reg t i = .error (.invalidEnum t))
    ∧ (∀ e, enumValuesOf reg (goToLower t) = some e → goToLower i ∉ e →
        FFEnumParseString reg t i = .error (.invalidEnumValue i t))
    ∧ (∀ v₀, goToLower v₀ ≠ v₀ → FFEnumParseString reg t i ≠ .ok v₀)
    ∧ (∀ t₀, goToLower t₀ ≠ t₀ →
        FFEnumParseString (reg.filter fun p => p.1 != t₀) t i =
          FFEnumParseString reg t i) := by
  refine ⟨fun v => enum_parse_ok_iff reg t i v,
          enum_parse_unknown_type reg t i,
          fun e he hm => enum_parse_bad_value reg t i e he hm, ?_, ?_⟩
  · intro v₀ hup hok
    obtain ⟨hv, -⟩ := (enum_parse_ok_iff reg t i v₀).1 hok
    rw [hv] at hup
    exact hup (goToLower_idem i)
  · intro t₀ ht
    have hk : goToLower t ≠ t₀ := by
      intro h
      apply ht
      rw [← h]
      exact goToLower_idem t
    unfold FFEnumParseString
    rw [enumValuesOf_filter_ne reg t₀ (goToLower t) hk]

/-- Witness for C9: a concrete registry with the value `pinned` registered
under type `txtype`, parsed with mixed-case type and value inputs. -/
theorem C9_enum_parse_spec_witness :
    FFEnumParseString [("txtype".data, "pinned".data)] "TxType".data "PINNED".data =
      .ok "pinned".data :=
  ((C9_enum_parse_spec [("txtype".data, "pinned".data)] "TxType".data
      "PINNED".data).1 "pinned".data).2
    ⟨by decide, ["pinned".data], by decide, by decide⟩

/-! ## Theorems — server lifecycle controller -/

theorem lcStep_preserves (s : Controller) (e : LCEvent)
    (h : (s.phase = .terminated ∧ s.written.length = 1) ∨
         (s.phase ≠ .terminated ∧ s.written = [])) :
    ((lcStep s e).phase = .terminated ∧ (lcStep s e).written.length = 1) ∨
    ((lcStep s e).phase ≠ .terminated ∧ (lcStep s e).written = []) := by
  rcases s with ⟨ph, w⟩
  rcases h with ⟨h1, h2⟩ | ⟨h1, h2⟩ <;> cases ph <;> cases e <;>
    simp_all [lcStep]

theorem lcFold_preserves (events : List LCEvent) (s : Controller)
    (h : (s.phase = .terminated ∧ s.written.length = 1) ∨
         (s.phase ≠ .terminated ∧ s.written = [])) :
    (((events.foldl lcStep s).phase = .terminated ∧
        (events.foldl lcStep s).written.length = 1) ∨
     ((events.foldl lcStep s).phase ≠ .terminated ∧
        (events.foldl lcStep s).written = [])) := by
  induction events generalizing s with
  | nil => exact h
  | cons e tl ih => exact ih (lcStep s e) (lcStep_preserves s e h)

theorem lcStep_written_cases (s : Controller) (e : LCEvent) (v : Option GoString)
    (hv : v ∈ (lcStep s e).written) :
    v ∈ s.written ∨ e = .serveReturned v ∨ e = .shutdownCompleted v := by
  rcases s with ⟨ph, w⟩
  cases ph <;> cases e <;> simp_all [lcStep] <;> tauto

theorem lcFold_written_from (events : List LCEvent) (s : Controller)
    (v : Option GoString) (hv : v ∈ (events.foldl lcStep s).written) :
    v ∈ s.written ∨ LCEvent.serveReturned v ∈ events ∨
      LCEvent.shutdownCompleted v ∈ events := by
  induction events generalizing s with
  | nil => exact .inl hv
  | cons e tl ih =>
    rcases ih (lcStep s e) hv with h | h | h
    · rcases lcStep_written_cases s e v h with h' | h' | h'
      · exact .inl h'
      · exact .inr (.inl (h' ▸ List.mem_cons_self e tl))
      · exact .inr (.inr (h' ▸ List.mem_cons_self e tl))
    · exact .inr (.inl (List.mem_cons_of_mem e h))
    · exact .inr (.inr (List.mem_cons_of_mem e h))

theorem lcStep_terminated (s : Controller) (e : LCEvent)
    (h : s.phase = .terminated) : lcStep s e = s := by
  rcases s with ⟨ph, w⟩
  cases ph <;> cases e <;> simp_all [lcStep]

theorem lcFold_terminated (events : List LCEvent) (s : Controller)
    (h : s.phase = .terminated) : events.foldl lcStep s = s := by
  induction events with
  | nil => rfl
  | cons e tl ih => rw [List.foldl_cons, lcStep_terminated s e h]; exact ih

/-- C1: per serve invocation the lifecycle controller writes to the
caller's error channel exactly once — never more than one value is ever
written, a completed (terminated) invocation has written exactly one, and
every written value is the terminal outcome delivered by the serve loop's
own return or by the shutdown call (`none` = clean `nil`, `some` a
descriptive error). -/
theorem C1_error_channel_exactly_once (events : List LCEvent) :
    (lcRun events).written.length ≤ 1
    ∧ ((lcRun events).phase = .terminated ↔ (lcRun events).written.length = 1)
    ∧ (∀ v, v ∈ (lcRun events).written →
        LCEvent.serveReturned v ∈ events ∨ LCEvent.shutdownCompleted v ∈ events) := by
  have h0 : (({ phase := .idle, written := [] } : Controller).phase = .terminated ∧
      (({ phase := .idle, written := [] } : Controller)).written.length = 1) ∨
      (({ phase := .idle, written := [] } : Controller).phase ≠ .terminated ∧
      (({ phase := .idle, written := [] } : Controller)).written = []) :=
    .inr ⟨by decide, rfl⟩
  have h := lcFold_preserves events { phase := .idle, written := [] } h0
  unfold lcRun
  refine ⟨?_, ?_, ?_⟩
  · rcases h with ⟨-, h2⟩ | ⟨-, h2⟩ <;> simp [h2]
  · rcases h with ⟨h1, h2⟩ | ⟨h1, h2⟩ <;> constructor <;> intro hx <;>
      simp_all
  · intro v hv
    rcases lcFold_written_from events _ v hv with h' | h' | h'
    · cases h'
    · exact .inl h'
    · exact .inr h'

/-- Witness for C1: the clean-shutdown event sequence yields exactly one
write. -/
theorem C1_error_channel_exactly_once_witness :
    (lcRun [.start, .ctxCancelled, .shutdownCompleted none]).written.length = 1 :=
  (C1_error_channel_exactly_once
    [.start, .ctxCancelled, .shutdownCompleted none]).2.1.1 (by decide)

/-- C2: when the serving context is cancelled the controller moves to a
graceful shutdown bounded by the configured timeout, and the value written
to the error channel is exactly the shutdown call's own result — `nil`
(`none`) when the drain completes within the bound, the deadline-exceeded
error when the bound is exceeded, and in general whatever the shutdown
primitive returned. -/
theorem C2_cancellation_shutdown (drain timeout : Nat) :
    (lcRun [.start, .ctxCancelled]).phase = .shuttingDown
    ∧ (∀ r, lcRun [.start, .ctxCancelled, .shutdownCompleted r] =
        { phase := .terminated, written := [r] })
    ∧ (lcRun [.start, .ctxCancelled,
          .shutdownCompleted (shutdownResult drain timeout)]).written =
        [shutdownResult drain timeout]
    ∧ (drain ≤ timeout → shutdownResult drain timeout = none)
    ∧ (timeout < drain →
        shutdownResult drain timeout = some "context deadline exceeded".data) := by
  refine ⟨rfl, fun r => rfl, rfl, ?_, ?_⟩
  · intro h
    simp [shutdownResult, h]
  · intro h
    simp [shutdownResult, Nat.not_le.2 h]

/-- Witness for C2: a drain that fits the bound produces a `nil` write. -/
theorem C2_cancellation_shutdown_witness :
    2 ≤ 3 ∧ shutdownResult 2 3 = none :=
  ⟨by decide, (C2_cancellation_shutdown 2 3).2.2.2.1 (by decide)⟩

/-- C7: when the bound listener is closed out-of-band before serving
starts, the serve loop returns a (non-nil) error at once: the run
terminates with exactly one non-nil channel write, whatever happens
afterwards, and the driving events contain no context cancellation. -/
theorem C7_listener_closed_before_serving (err : GoString) (post : List LCEvent) :
    (lcRun ([.start, .serveReturned (some err)] ++ post)).phase = .terminated
    ∧ (lcRun ([.start, .serveReturned (some err)] ++ post)).written = [some err]
    ∧ LCEvent.ctxCancelled ∉
        ([.start, .serveReturned (some err)] : List LCEvent) := by
  have hrun : lcRun ([.start, .serveReturned (some err)] ++ post) =
      { phase := .terminated, written := [some err] } := by
    unfold lcRun
    rw [List.foldl_append]
    exact lcFold_terminated post _ rfl
  rw [hrun]
  refine ⟨rfl, rfl, ?_⟩
  simp

/-- Witness for C7: a concrete closed-listener error with no further
events. -/
theorem C7_listener_closed_before_serving_witness :
    (lcRun [.start,
      .serveReturned (some "use of closed network connection".data)]).written =
      [some "use of closed network connection".data] :=
  (C7_listener_closed_before_serving
    "use of closed network connection".data []).2.1

/-! ## Theorems — construction, auth dispatch & middleware -/

/-- C5: for every malformed listen address string, construction fails with
the listener-configuration-invalid error and an empty effect trace — no
socket is opened and nothing else of the environment (file system, plugin
registry) is consulted, so the failure depends on the address string
alone. -/
theorem C5_malformed_address (fs : FileSystem) (reg : AuthRegistry)
    (conf : HTTPConfig) (h : listenAddressValid conf.address = false) :
    NewHTTPServer fs reg conf = (.error (.listenerInvalid conf.address), []) := by
  unfold NewHTTPServer
  rw [if_neg (by simp [h])]

/-- Witness for C5: the tests' malformed address of bare dots. -/
theorem C5_malformed_address_witness :
    NewHTTPServer ⟨fun _ => none⟩ []
      { address := "...".data, port := 5000, tlsEnabled := false,
        tlsClientAuth := false, tlsKeyFile := [], tlsCertFile := [],
        tlsCAFile := [], shutdownTimeout := 15, maximumRequestTimeout := 600,
        authType := [] } =
      (.error (.listenerInvalid "...".data), []) :=
  C5_malformed_address _ _ _ (by decide)

/-- C4: a CA-file path naming a nonexistent file fails construction with
the CA-file-missing error, carrying code `FF00153`; a path to a file that
exists but holds no valid certificate data fails with the distinct
CA-file-unparsable error, carrying code `FF00152`; the two codes differ,
and neither failure opens a socket. -/
theorem C4_ca_file_errors (fs : FileSystem) (reg : AuthRegistry)
    (conf : HTTPConfig) (haddr : listenAddressValid conf.address = true)
    (hpath : conf.tlsCAFile.isEmpty = false) :
    (fs.read conf.tlsCAFile = none →
      NewHTTPServer fs reg conf = (.error (.caFileMissing conf.tlsCAFile), []))
    ∧ (∀ content, fs.read conf.tlsCAFile = some content →
        pemHasCertificate content = false →
        NewHTTPServer fs reg conf =
          (.error (.caFileUnparsable conf.tlsCAFile), []))
    ∧ ConfigError.code (.caFileMissing conf.tlsCAFile) = some "FF00153".data
    ∧ ConfigError.code (.caFileUnparsable conf.tlsCAFile) = some "FF00152".data
    ∧ ConfigError.code (.caFileMissing conf.tlsCAFile) ≠
        ConfigError.code (.caFileUnparsable conf.tlsCAFile) := by
  refine ⟨?_, ?_, rfl, rfl, by simp only [ConfigError.code]; decide⟩
  · intro hread
    unfold NewHTTPServer loadCAPool
    rw [if_pos haddr, if_neg (by simp [hpath]), hread]
  · intro content hread hcert
    unfold NewHTTPServer loadCAPool
    rw [if_pos haddr, if_neg (by simp [hpath]), hread]
    dsimp only
    rw [if_neg (by simp [hcert])]

/-- Witness for C4: a file system with no files at all and the tests' CA
path. -/
theorem C4_ca_file_errors_witness :
    NewHTTPServer ⟨fun _ => none⟩ []
      { address := [], port := 0, tlsEnabled := false,
        tlsClientAuth := false, tlsKeyFile := [], tlsCertFile := [],
        tlsCAFile := "badness".data, shutdownTimeout := 15,
        maximumRequestTimeout := 600, authType := [] } =
      (.error (.caFileMissing "badness".data), []) :=
  (C4_ca_file_errors ⟨fun _ => none⟩ [] _ (by decide) (by decide)).1 rfl

/-- C6: for every auth-type identifier not resolvable in the plugin
registry, construction fails with the distinct
unknown-authentication-plugin error naming the offending identifier and
carrying code `FF00168`, with an empty effect trace — no listener is
opened. -/
theorem C6_unknown_auth_plugin (fs : FileSystem) (reg : AuthRegistry)
    (conf : HTTPConfig) (pool : List GoString)
    (haddr : listenAddressValid conf.address = true)
    (hca : loadCAPool fs conf.tlsCAFile = .ok pool)
    (hkey : loadKeyPair fs conf = .ok ())
    (hne : conf.authType.isEmpty = false)
    (hmiss : reg.find? (fun p => goToLower p.1 == goToLower conf.authType) = none) :
    NewHTTPServer fs reg conf = (.error (.unknownAuthPlugin conf.authType), [])
    ∧ ConfigError.code (.unknownAuthPlugin conf.authType) = some "FF00168".data := by
  refine ⟨?_, rfl⟩
  unfold NewHTTPServer
  rw [if_pos haddr, hca]
  dsimp only
  rw [hkey]
  dsimp only
  unfold resolveAuthPlugin
  rw [if_neg (by simp [hne]), hmiss]

/-- Witness for C6: the tests' unknown plugin name against an empty
registry. -/
theorem C6_unknown_auth_plugin_witness :
    NewHTTPServer ⟨fun _ => none⟩ []
      { address := [], port := 0, tlsEnabled := false,
        tlsClientAuth := false, tlsKeyFile := [], tlsCertFile := [],
        tlsCAFile := [], shutdownTimeout := 15, maximumRequestTimeout := 600,
        authType := "banana".data } =
      (.error (.unknownAuthPlugin "banana".data), []) :=
  (C6_unknown_auth_plugin ⟨fun _ => none⟩ []
    { address := [], port := 0, tlsEnabled := false,
      tlsClientAuth := false, tlsKeyFile := [], tlsCertFile := [],
      tlsCAFile := [], shutdownTimeout := 15, maximumRequestTimeout := 600,
      authType := "banana".data } [] (by decide) rfl rfl
    (by decide) rfl).1

/-- C8: an empty auth-type identifier resolves to the no-op authenticator,
which authorizes every request, so under it every request reaches the
router; and plugin-name resolution is case-insensitive: identifiers equal
up to letter case resolve identically. -/
theorem C8_auth_resolution (reg : AuthRegistry) :
    resolveAuthPlugin reg [] = .ok noopAuthenticator
    ∧ (∀ req, noopAuthenticator.authorize req = true)
    ∧ (∀ router req, serveRequest noopAuthenticator router req = (router req, true))
    ∧ (∀ t₁ t₂ a, goToLower t₁ = goToLower t₂ →
        (resolveAuthPlugin reg t₁ = .ok a ↔ resolveAuthPlugin reg t₂ = .ok a)) := by
  refine ⟨rfl, fun req => rfl, fun router req => rfl, ?_⟩
  intro t₁ t₂ a h
  have hlen : t₁.isEmpty = t₂.isEmpty := by
    have hl : t₁.length = t₂.length := by
      have h1 : (goToLower t₁).length = (goToLower t₂).length := by rw [h]
      simpa [goToLower] using h1
    cases t₁ <;> cases t₂ <;> simp_all
  unfold resolveAuthPlugin
  rw [hlen, h]
  by_cases he : t₂.isEmpty = true
  · rw [if_pos he, if_pos he]
  · rw [if_neg he, if_neg he]
    cases hf : reg.find? fun p => goToLower p.1 == goToLower t₂ with
    | some p => simp
    | none => simp

/-- Witness for C8: a one-plugin registry resolved under two spellings of
its name. -/
theorem C8_auth_resolution_witness :
    (resolveAuthPlugin [("Basic".data, ⟨fun _ => true⟩)] "BASIC".data =
        .ok ⟨fun _ => true⟩) ↔
      resolveAuthPlugin [("Basic".data, ⟨fun _ => true⟩)] "basic".data =
        .ok ⟨fun _ => true⟩ :=
  (C8_auth_resolution [("Basic".data, ⟨fun _ => true⟩)]).2.2.2
    "BASIC".data "basic".data ⟨fun _ => true⟩ (by decide)

/-- C3: a request failing authentication is short-circuited by the
middleware chain: HTTP status 403 with the single-field JSON body
`error = FF00169: Unauthorized`, the router flag is false and the outcome
is the same for every router (the router is not invoked); a request with
valid credentials receives the router's response unmodified. -/
theorem C3_auth_enforcement (auth : Authenticator)
    (router : GoRequest → GoResponse) (req : GoRequest) :
    (auth.authorize req = false →
      serveRequest auth router req =
        ({ status := 403,
           body := [("error".data, "FF00169: Unauthorized".data)] }, false)
      ∧ ∀ router', serveRequest auth router' req = serveRequest auth router req)
    ∧ (auth.authorize req = true →
      serveRequest auth router req = (router req, true)) := by
  constructor
  · intro h
    constructor
    · simp [serveRequest, h, unauthorizedMessage]
    · intro router'
      simp [serveRequest, h]
  · intro h
    simp [serveRequest, h]

/-- Witness for C3: a rejecting authenticator against a 200-router. -/
theorem C3_auth_enforcement_witness :
    serveRequest ⟨fun _ => false⟩ (fun _ => { status := 200, body := [] })
      { headers := [], path := [] } =
      ({ status := 403,
         body := [("error".data, "FF00169: Unauthorized".data)] }, false) :=
  ((C3_auth_enforcement ⟨fun _ => false⟩ (fun _ => { status := 200, body := [] })
    { headers := [], path := [] }).1 rfl).1

/-! ## Theorems — pkg/cache -/

theorem disabled_empty_applyOp (c : CCache) (op : CacheOp)
    (he : c.enabled = false) (hs : c.store = []) : c.applyOp op = c := by
  cases op with
  | opSet k v => simp [CCache.applyOp, CCache.set, he]
  | opDelete k => simp [CCache.applyOp, CCache.delete, CCache.get, hs]

theorem disabled_empty_applyOps (c : CCache) (ops : List CacheOp)
    (he : c.enabled = false) (hs : c.store = []) : c.applyOps ops = c := by
  induction ops with
  | nil => rfl
  | cons op tl ih =>
    unfold CCache.applyOps
    rw [List.foldl_cons, disabled_empty_applyOp c op he hs]
    exact ih

/-- C10: a cache freshly obtained from a manager via `GetCache` is enabled
iff both the manager's global flag and the per-cache flag are true (a
per-cache `true` cannot override a disabled manager), and a disabled cache
is observably inert under any operation sequence: `Get` returns nil, the
typed getters return zero values, and `Delete` returns false. -/
theorem C10_cache_enablement (m : CacheManager) (name : GoString)
    (size ttl : Nat) (per : Bool)
    (hfresh : m.caches.find? (fun p => p.1 == name) = none) :
    (m.getCache name size ttl per).2.enabled = (m.enabled && per)
    ∧ (m.enabled = false → (m.getCache name size ttl per).2.enabled = false)
    ∧ ((m.enabled && per) = false → ∀ ops k,
        ((m.getCache name size ttl per).2.applyOps ops).get k = none
        ∧ ((m.getCache name size ttl per).2.applyOps ops).getInt k = 0
        ∧ ((m.getCache name size ttl per).2.applyOps ops).getInt64 k = 0
        ∧ ((m.getCache name size ttl per).2.applyOps ops).getString k = []
        ∧ (((m.getCache name size ttl per).2.applyOps ops).delete k).2 = false) := by
  have hc : (m.getCache name size ttl per).2 =
      { enabled := m.enabled && per, store := [] } := by
    unfold CacheManager.getCache
    rw [hfresh]
  rw [hc]
  refine ⟨rfl, fun h => by simp [h], ?_⟩
  intro hdis ops k
  rw [disabled_empty_applyOps _ ops hdis rfl]
  refine ⟨rfl, rfl, rfl, rfl, rfl⟩

/-- Witness for C10: a disabled manager with a per-cache flag of true. -/
theorem C10_cache_enablement_witness :
    ((NewCacheManager false).getCache "cache1".data 85 1 true).2.enabled = false :=
  (C10_cache_enablement (NewCacheManager false) "cache1".data 85 1 true rfl).2.1 rfl

end FireflyCommon
